import Mathlib

/-!
Verification development for the scanic document scanner core.

The definitions below are shallow embeddings of the JavaScript source:

* `adaptiveThresholdJS`, and the histogram/clipping fragment of `claheJS`,
  from `preprocessing.js`;
* `angleBetween`, `contourArea`, `isConvex`, `hasReasonableAngles`,
  `computeAngleScore`, `quadAspectRatio` and `findDocumentContour`
  from `contourFilter.js`;
* the multi-strategy driver `detectDocumentInternal` from `index.js`.

JavaScript numbers are modelled as real numbers (and as `ℚ`/`ℤ`/`ℕ` where the
source only ever holds exact small values); byte arrays are modelled as
`ℕ → ℕ` lookups or `List ℕ`.  External collaborators that are not part of this
repository core (the polygon-approximation operator, the Canny edge detector
plus contour tracer, and the corner-ordering routine) are passed in as explicit
function parameters, exactly as the driver consumes them through its module
boundary.
-/

namespace Scanic

/-- Embedding of `adaptiveThresholdJS(input, blurred, width, height, offset, invert)`:
for every pixel `i < width*height` it computes `threshold = blurred[i] - offset`,
`above = input[i] > threshold`, and outputs `(above !== invert) ? 255 : 0`. -/
def adaptiveThresholdJS (input blurred : ℕ → ℕ) (width height : ℕ)
    (offset : ℤ) (invert : Bool) : List ℕ :=
  (List.range (width * height)).map fun i =>
    let threshold : ℤ := (blurred i : ℤ) - offset
    let above : Bool := decide ((input i : ℤ) > threshold)
    if above ≠ invert then 255 else 0

/-- Nominal tile width `Math.floor(width / tileGridX)` of `claheJS`. -/
def tileWidth (width gx : ℕ) : ℕ := width / gx

/-- Nominal tile height `Math.floor(height / tileGridY)` of `claheJS`. -/
def tileHeight (height gy : ℕ) : ℕ := height / gy

/-- The per-bin cap `actualClip` of `claheJS`: for `clipLimit > 0` it is
`Math.max(1, Math.floor((clipLimit * tilePixels) / 256))` where `tilePixels`
is the NOMINAL tile pixel count supplied by the caller of this helper;
`none` models the `Infinity` (unclipped) case. -/
def claheActualClip (clipLimit : ℚ) (tilePixels : ℕ) : Option ℕ :=
  if 0 < clipLimit then
    some (max 1 (Int.floor (clipLimit * tilePixels / 256))).toNat
  else none

/-- The clip value `claheJS` uses for every tile of a `width × height` image
with tile grid `gx × gy`: it is computed once, from
`tilePixels = tileWidth * tileHeight`, before the tile loop. -/
def claheClipUsed (width height gx gy : ℕ) (clipLimit : ℚ) : Option ℕ :=
  claheActualClip clipLimit (tileWidth width gx * tileHeight height gy)

/-- Tile column range start `xStart = tx * tileWidth` of `claheJS`. -/
def tileXStart (width gx tx : ℕ) : ℕ := tx * tileWidth width gx

/-- Tile column range end: the last tile column extends to `width`. -/
def tileXEnd (width gx tx : ℕ) : ℕ :=
  if tx = gx - 1 then width else tileXStart width gx tx + tileWidth width gx

/-- Tile row range start `yStart = ty * tileHeight` of `claheJS`. -/
def tileYStart (height gy ty : ℕ) : ℕ := ty * tileHeight height gy

/-- Tile row range end: the last tile row extends to `height`. -/
def tileYEnd (height gy ty : ℕ) : ℕ :=
  if ty = gy - 1 then height else tileYStart height gy ty + tileHeight height gy

/-- The `actualTilePixels = (yEnd - yStart) * (xEnd - xStart)` of `claheJS`,
the number of pixels the tile `(tx, ty)` really covers. -/
def actualTilePixels (width height gx gy tx ty : ℕ) : ℕ :=
  (tileYEnd height gy ty - tileYStart height gy ty) *
    (tileXEnd width gx tx - tileXStart width gx tx)

/-- The 256-bin histogram `claheJS` builds for tile `(tx, ty)`:
`hist[v]` counts the pixels of the tile whose luminance is `v`. -/
def tileHist (input : ℕ → ℕ) (width height gx gy tx ty v : ℕ) : ℕ :=
  ∑ y ∈ Finset.Ico (tileYStart height gy ty) (tileYEnd height gy ty),
    ∑ x ∈ Finset.Ico (tileXStart width gx tx) (tileXEnd width gx tx),
      if input (y * width + x) = v then 1 else 0

/-- The total excess accumulated while capping each bin at `clip`
(the `excess` variable of `claheJS`; natural subtraction models the
`hist[i] > actualClip` guard). -/
def clipExcess (clip : ℕ) (hist : ℕ → ℕ) : ℕ :=
  ∑ i ∈ Finset.range 256, (hist i - clip)

/-- The clip-and-redistribute step of `claheJS` with per-bin cap `clip`:
each bin is capped at `clip`, then `⌊excess/256⌋` is added to every bin and
one extra count goes to each bin below `excess % 256`. -/
def clipHistogram (clip : ℕ) (hist : ℕ → ℕ) (i : ℕ) : ℕ :=
  min (hist i) clip + clipExcess clip hist / 256 +
    (if i < clipExcess clip hist % 256 then 1 else 0)

/-- The clipped histogram `claheJS` computes for tile `(tx, ty)`: when the
clip limit is positive, the tile histogram is clipped with the single,
globally computed cap `claheClipUsed`; otherwise it is left unclipped. -/
def claheClippedHist (input : ℕ → ℕ) (width height gx gy : ℕ) (clipLimit : ℚ)
    (tx ty v : ℕ) : ℕ :=
  match claheClipUsed width height gx gy clipLimit with
  | none => tileHist input width height gx gy tx ty v
  | some clip => clipHistogram clip (tileHist input width height gx gy tx ty) v

/-! ### Claims C1 and C8: adaptive thresholding -/

/-- C1 (counterexample): the claimed output map `(above XOR invert) ? 0 : 255`
is false on the code.  With `invert = true`, the pixel `input = 200` is
strictly brighter than its blurred mean minus the offset (`200 > 100 - 12`),
so the claim predicts output 255 (white); `adaptiveThresholdJS` outputs 0. -/
theorem adaptive_threshold_polarity_counterexample :
    (200 : ℤ) > (100 : ℤ) - 12 ∧
    (adaptiveThresholdJS (fun _ => 200) (fun _ => 100) 1 1 12 true).getD 0 0 = 0 ∧
    (adaptiveThresholdJS (fun _ => 200) (fun _ => 100) 1 1 12 true).getD 0 0 ≠ 255 := by
  refine ⟨by norm_num, ?_, ?_⟩ <;> decide

/-- C1 (amended): for every pixel `i`, offset and invert flag, the adaptive
threshold computes `above = (input[i] > blurred[i] - offset)` and outputs 255
when `above XOR invert` is true and 0 otherwise; in particular, with
`invert = true`, a pixel strictly brighter than its local blurred mean minus
the offset is mapped to 0 (black). -/
theorem adaptive_threshold_formula (input blurred : ℕ → ℕ) (width height : ℕ)
    (offset : ℤ) (invert : Bool) (i : ℕ) (hi : i < width * height) :
    (adaptiveThresholdJS input blurred width height offset invert).getD i 0 =
      (if xor (decide ((input i : ℤ) > (blurred i : ℤ) - offset)) invert
        then 255 else 0) ∧
    (invert = true → (input i : ℤ) > (blurred i : ℤ) - offset →
      (adaptiveThresholdJS input blurred width height offset invert).getD i 0 = 0) := by
  have hbody : (adaptiveThresholdJS input blurred width height offset invert).getD i 0 =
      (if decide ((input i : ℤ) > (blurred i : ℤ) - offset) ≠ invert then 255 else 0) := by
    simp [adaptiveThresholdJS, List.getD_eq_getElem?_getD, List.getElem?_map,
      List.getElem?_range hi]
  constructor
  · rw [hbody]
    cases invert <;> by_cases h : (input i : ℤ) > (blurred i : ℤ) - offset <;>
      simp [h]
  · intro hinv h
    rw [hbody, hinv]
    simp [h]

/-- C1 (amended) witness at a concrete pixel: input 200, blurred 100,
offset 12, invert true gives output 0. -/
theorem adaptive_threshold_formula_witness :
    (adaptiveThresholdJS (fun _ => 200) (fun _ => 100) 1 1 12 true).getD 0 0 = 0 :=
  (adaptive_threshold_formula (fun _ => 200) (fun _ => 100) 1 1 12 true 0
    (by norm_num)).2 rfl (by norm_num)

/-- C8: for every input image, offset and invert flag, every pixel of the
adaptive-threshold output is either 0 or 255. -/
theorem adaptive_threshold_binary (input blurred : ℕ → ℕ) (width height : ℕ)
    (offset : ℤ) (invert : Bool) (v : ℕ)
    (hv : v ∈ adaptiveThresholdJS input blurred width height offset invert) :
    v = 0 ∨ v = 255 := by
  rcases List.mem_map.mp hv with ⟨i, -, rfl⟩
  dsimp only
  split
  · exact Or.inr rfl
  · exact Or.inl rfl

/-- C8 witness: the single output pixel of a concrete run is binary. -/
theorem adaptive_threshold_binary_witness : (0 : ℕ) = 0 ∨ (0 : ℕ) = 255 :=
  adaptive_threshold_binary (fun _ => 200) (fun _ => 100) 1 1 12 true 0 (by decide)

/-! ### Claim C3: CLAHE clip count -/

set_option maxRecDepth 4000 in
/-- C3 (counterexample): in a 3×1 image with a 2×1 tile grid and clip limit
256, the nominal tile size is 1×1 but the last tile covers 2 pixels.  The
code clips every tile with the single cap `max(1, ⌊256·1/256⌋) = 1`, while
the claim demands `max(1, ⌊256·2/256⌋) = 2` for the last tile; with input
`[5, 7, 7]` the clipped histograms differ at bin 7 (1 versus 2). -/
theorem clahe_clip_count_counterexample :
    claheClipUsed 3 1 2 1 256 = some 1 ∧
    (max 1 (Int.floor ((256 : ℚ) * (actualTilePixels 3 1 2 1 1 0) / 256))).toNat = 2 ∧
    (1 : ℕ) ≠ 2 ∧
    claheClippedHist (fun i => [5, 7, 7].getD i 0) 3 1 2 1 256 1 0 7 = 1 ∧
    clipHistogram 2 (tileHist (fun i => [5, 7, 7].getD i 0) 3 1 2 1 1 0) 7 = 2 := by
  have hused : claheClipUsed 3 1 2 1 256 = some 1 := by
    norm_num [claheClipUsed, claheActualClip, tileWidth, tileHeight]
  refine ⟨hused, ?_, by norm_num, ?_, ?_⟩
  · norm_num [actualTilePixels, tileXStart, tileXEnd, tileYStart, tileYEnd,
      tileWidth, tileHeight]
    decide
  · rw [claheClippedHist, hused]
    decide
  · decide

/-- C3 (amended): the per-bin clip count used for histogram clipping is the
single value `max(1, ⌊L · tilePixels / 256⌋)` computed once from the NOMINAL
tile size `⌊W/gx⌋ · ⌊H/gy⌋`; it is not recomputed from each tile.  For every
interior tile (not in the last tile row or column) the actual pixel count
equals the nominal one, so for those tiles the claimed formula does hold, and
the clipped histogram of such a tile is obtained with that cap. -/
theorem clahe_clip_count_nominal (width height gx gy : ℕ) (L : ℚ) (hL : 0 < L)
    (tx ty : ℕ) (htx : tx + 1 < gx) (hty : ty + 1 < gy) :
    actualTilePixels width height gx gy tx ty =
      tileWidth width gx * tileHeight height gy ∧
    claheClipUsed width height gx gy L =
      some (max 1 (Int.floor (L * (actualTilePixels width height gx gy tx ty) / 256))).toNat ∧
    ∀ input v, claheClippedHist input width height gx gy L tx ty v =
      clipHistogram
        (max 1 (Int.floor (L * (actualTilePixels width height gx gy tx ty) / 256))).toNat
        (tileHist input width height gx gy tx ty) v := by
  have hxe : tileXEnd width gx tx = tileXStart width gx tx + tileWidth width gx := by
    rw [tileXEnd, if_neg (by omega)]
  have hye : tileYEnd height gy ty = tileYStart height gy ty + tileHeight height gy := by
    rw [tileYEnd, if_neg (by omega)]
  have hn : actualTilePixels width height gx gy tx ty =
      tileWidth width gx * tileHeight height gy := by
    rw [actualTilePixels, hxe, hye, Nat.add_sub_cancel_left, Nat.add_sub_cancel_left,
      Nat.mul_comm]
  have hclip : claheClipUsed width height gx gy L =
      some (max 1 (Int.floor (L * (actualTilePixels width height gx gy tx ty) / 256))).toNat := by
    rw [claheClipUsed, claheActualClip, if_pos hL, hn]
  refine ⟨hn, hclip, fun input v => ?_⟩
  rw [claheClippedHist, hclip]

/-- C3 (amended) witness: a concrete interior tile of a 4×4 image with a 2×2
grid and clip limit 2. -/
theorem clahe_clip_count_nominal_witness :
    claheClipUsed 4 4 2 2 2 =
      some (max 1 (Int.floor ((2 : ℚ) * (actualTilePixels 4 4 2 2 0 0) / 256))).toNat ∧
    claheClippedHist (fun _ => 0) 4 4 2 2 2 0 0 0 =
      clipHistogram
        (max 1 (Int.floor ((2 : ℚ) * (actualTilePixels 4 4 2 2 0 0) / 256))).toNat
        (tileHist (fun _ => 0) 4 4 2 2 0 0) 0 :=
  ⟨(clahe_clip_count_nominal 4 4 2 2 2 (by norm_num) 0 0 (by norm_num) (by norm_num)).2.1,
   (clahe_clip_count_nominal 4 4 2 2 2 (by norm_num) 0 0 (by norm_num) (by norm_num)).2.2
     (fun _ => 0) 0⟩

/-! ### Contour filter (contourFilter.js)

JS numbers are modelled as `ℝ`; decisions on real comparisons use classical
decidability, so the geometric definitions are noncomputable (exact real
versions of the float code). -/

open Classical

/-- A 2D point with JS-number (real) coordinates. -/
structure Point where
  x : ℝ
  y : ℝ

/-- Array lookup `points[k]` as used by the filter loops (all indices are
already reduced modulo the length, hence in range). -/
def pget (ps : List Point) (k : ℕ) : Point := ps.getD k ⟨0, 0⟩

/-- Embedding of `angleBetween(p0, p1, p2)`: the angle at vertex `p1` in
degrees, via the clamped cosine; a zero-length incident edge returns 0. -/
noncomputable def angleBetween (p0 p1 p2 : Point) : ℝ :=
  let v1x := p0.x - p1.x
  let v1y := p0.y - p1.y
  let v2x := p2.x - p1.x
  let v2y := p2.y - p1.y
  let dot := v1x * v2x + v1y * v2y
  let mag1 := Real.sqrt (v1x * v1x + v1y * v1y)
  let mag2 := Real.sqrt (v2x * v2x + v2y * v2y)
  if mag1 = 0 ∨ mag2 = 0 then 0
  else Real.arccos (max (-1) (min 1 (dot / (mag1 * mag2)))) * (180 / Real.pi)

/-- The interior angle at vertex `i` of a polygon, as the filter computes it:
`angleBetween(points[(i+n-1)%n], points[i], points[(i+1)%n])`. -/
noncomputable def angleAt (ps : List Point) (i : ℕ) : ℝ :=
  angleBetween (pget ps ((i + ps.length - 1) % ps.length)) (pget ps i)
    (pget ps ((i + 1) % ps.length))

/-- Embedding of `contourArea(points)`: shoelace formula, absolute value
halved; polygons with fewer than 3 points have area 0. -/
noncomputable def contourArea (ps : List Point) : ℝ :=
  if ps.length < 3 then 0
  else
    |∑ i ∈ Finset.range ps.length,
        ((pget ps i).x * (pget ps ((i + 1) % ps.length)).y -
          (pget ps ((i + 1) % ps.length)).x * (pget ps i).y)| / 2

/-- The cross product of consecutive edge vectors at index `i` used by
`isConvex`: with `p0 = points[i]`, `p1 = points[(i+1)%n]`, `p2 = points[(i+2)%n]`,
it is `dx1 * dy2 - dy1 * dx2`. -/
noncomputable def crossAt (ps : List Point) (i : ℕ) : ℝ :=
  let p0 := pget ps i
  let p1 := pget ps ((i + 1) % ps.length)
  let p2 := pget ps ((i + 2) % ps.length)
  (p1.x - p0.x) * (p2.y - p1.y) - (p1.y - p0.y) * (p2.x - p1.x)

/-- The sign-tracking loop of `isConvex`: `sign` starts at 0, the first
non-zero cross product fixes it, and any later non-zero cross product with
the opposite sign returns false. -/
noncomputable def convexSigns : List ℝ → ℝ → Bool
  | [], _ => true
  | c :: rest, sign =>
    if c ≠ 0 then
      if sign = 0 then convexSigns rest (if c > 0 then 1 else -1)
      else if (if c > 0 then (1 : ℝ) else -1) ≠ sign then false
      else convexSigns rest sign
    else convexSigns rest sign

/-- Embedding of `isConvex(points)`: all non-zero cross products of
consecutive edge pairs share a sign; fewer than 3 points is not convex. -/
noncomputable def isConvex (ps : List Point) : Bool :=
  if ps.length < 3 then false
  else convexSigns ((List.range ps.length).map (crossAt ps)) 0

/-- Embedding of `hasReasonableAngles(points, minAngle, maxAngle)`: at least
3 points and no vertex angle below `minAngle` or above `maxAngle`. -/
def hasReasonableAngles (ps : List Point) (minAngle maxAngle : ℝ) : Prop :=
  3 ≤ ps.length ∧ ∀ i < ps.length, ¬(angleAt ps i < minAngle ∨ maxAngle < angleAt ps i)

/-- Embedding of `computeAngleScore(points)`: 1 minus the average deviation
of the vertex angles from 90°, scaled by 30° and clamped to [0, 1]. -/
noncomputable def computeAngleScore (ps : List Point) : ℝ :=
  if ps.length < 3 then 0
  else
    max 0 (min 1 (1 - (∑ i ∈ Finset.range ps.length, |angleAt ps i - 90|) / ps.length / 30))

/-- Edge length `i → (i+1) % 4` of a quadrilateral (the `edges` array of
`quadAspectRatio`). -/
noncomputable def edgeLength (ps : List Point) (i : ℕ) : ℝ :=
  Real.sqrt (((pget ps ((i + 1) % ps.length)).x - (pget ps i).x) *
      ((pget ps ((i + 1) % ps.length)).x - (pget ps i).x) +
    ((pget ps ((i + 1) % ps.length)).y - (pget ps i).y) *
      ((pget ps ((i + 1) % ps.length)).y - (pget ps i).y))

/-- Embedding of `quadAspectRatio(points)`: mean of edges 0, 2 over mean of
edges 1, 3; non-quadrilaterals get ratio 1; a zero height returns the JS
`Infinity`, modelled as `⊤ : EReal`. -/
noncomputable def quadAspectRatio (ps : List Point) : EReal :=
  if ps.length ≠ 4 then ((1 : ℝ) : EReal)
  else
    if (edgeLength ps 1 + edgeLength ps 3) / 2 = 0 then (⊤ : EReal)
    else (((edgeLength ps 0 + edgeLength ps 2) / 2 /
      ((edgeLength ps 1 + edgeLength ps 3) / 2) : ℝ) : EReal)

/-- The configuration record destructured at the top of
`findDocumentContour` (defaults already applied by the caller or by the
destructuring). -/
structure FilterOptions where
  minAreaRatio : ℝ
  maxAreaRatio : ℝ
  minAngle : ℝ
  maxAngle : ℝ
  epsilon : ℝ
  areaWeight : ℝ
  angleWeight : ℝ
  minAspectRatio : ℝ
  maxAspectRatio : ℝ
  epsilonValues : Option (List ℝ)

/-- The epsilon values the filter tries: the caller-provided list, or the
five multiples derived from the base epsilon. -/
noncomputable def epsilonList (fo : FilterOptions) : List ℝ :=
  match fo.epsilonValues with
  | some l => l
  | none => [fo.epsilon * 0.5, fo.epsilon * 0.75, fo.epsilon, fo.epsilon * 1.5, fo.epsilon * 2.0]

/-- A candidate record as pushed by `findDocumentContour` (the JS object also
repeats the contour points under a second key; both are the raw contour). -/
structure Candidate where
  contour : List Point
  approx : List Point
  area : ℝ
  epsilon : ℝ
  angleScore : ℝ
  score : ℝ

/-- The conjunction of the filter checks guarding candidate emission
(lines 55–71 of `contourFilter.js`): exactly four corners, area within the
bounds, convex, reasonable angles, aspect ratio within the bounds.  The
sequential `continue` guards of the source are equivalent to this
conjunction because every check is pure. -/
noncomputable def admissibleAt (approxFn : List Point → ℝ → List Point)
    (fo : FilterOptions) (minArea maxArea : ℝ) (points : List Point) (eps : ℝ) : Prop :=
  (approxFn points eps).length = 4 ∧
  ¬(contourArea (approxFn points eps) < minArea ∨ maxArea < contourArea (approxFn points eps)) ∧
  isConvex (approxFn points eps) = true ∧
  hasReasonableAngles (approxFn points eps) fo.minAngle fo.maxAngle ∧
  ¬(quadAspectRatio (approxFn points eps) < (fo.minAspectRatio : EReal) ∨
    (fo.maxAspectRatio : EReal) < quadAspectRatio (approxFn points eps))

/-- The candidate object emitted for contour `points` at tolerance `eps`:
score is `areaWeight * (area / imageArea) + angleWeight * angleScore`. -/
noncomputable def candidateAt (approxFn : List Point → ℝ → List Point)
    (fo : FilterOptions) (imageArea : ℝ) (points : List Point) (eps : ℝ) : Candidate :=
  { contour := points
    approx := approxFn points eps
    area := contourArea (approxFn points eps)
    epsilon := eps
    angleScore := computeAngleScore (approxFn points eps)
    score := fo.areaWeight * (contourArea (approxFn points eps) / imageArea) +
      fo.angleWeight * computeAngleScore (approxFn points eps) }

/-- The per-contour epsilon loop of `findDocumentContour`: try the epsilon
values in order, emit a candidate for every admissible one, and break out of
the loop as soon as an emitted candidate has score above 0.5. -/
noncomputable def tryEpsilons (approxFn : List Point → ℝ → List Point)
    (fo : FilterOptions) (imageArea minArea maxArea : ℝ)
    (points : List Point) : List ℝ → List Candidate
  | [] => []
  | eps :: rest =>
    if admissibleAt approxFn fo minArea maxArea points eps then
      if (0.5 : ℝ) < (candidateAt approxFn fo imageArea points eps).score then
        [candidateAt approxFn fo imageArea points eps]
      else
        candidateAt approxFn fo imageArea points eps ::
          tryEpsilons approxFn fo imageArea minArea maxArea points rest
    else tryEpsilons approxFn fo imageArea minArea maxArea points rest

/-- The full candidate list of `findDocumentContour`: contours with fewer
than four points are skipped, the rest go through the epsilon loop; the
candidates are accumulated in contour-major order. -/
noncomputable def findDocumentContourCandidates (approxFn : List Point → ℝ → List Point)
    (contours : List (List Point)) (imageWidth imageHeight : ℝ)
    (fo : FilterOptions) : List Candidate :=
  (contours.map fun points =>
    if points.length < 4 then []
    else tryEpsilons approxFn fo (imageWidth * imageHeight)
      (imageWidth * imageHeight * fo.minAreaRatio)
      (imageWidth * imageHeight * fo.maxAreaRatio) points (epsilonList fo)).flatten

/-- The descending-score order used by the final
`candidates.sort((a, b) => b.score - a.score)`. -/
def candGE (a b : Candidate) : Prop := b.score ≤ a.score

/-- Embedding of `findDocumentContour`: stable-sort the candidates by score
descending and return the first, or null when there is none. -/
noncomputable def findDocumentContour (approxFn : List Point → ℝ → List Point)
    (contours : List (List Point)) (imageWidth imageHeight : ℝ)
    (fo : FilterOptions) : Option Candidate :=
  (List.insertionSort candGE
    (findDocumentContourCandidates approxFn contours imageWidth imageHeight fo)).head?

/-! ### Evaluation helpers for the geometry -/

/-- Evaluation rule for `angleBetween` given the two squared magnitudes and
the cosine of the angle (already inside the clamp range). -/
lemma angleBetween_of_cos (p0 p1 p2 : Point) (m1 m2 c : ℝ)
    (hm1 : 0 < m1) (hm2 : 0 < m2)
    (h1 : (p0.x - p1.x) * (p0.x - p1.x) + (p0.y - p1.y) * (p0.y - p1.y) = m1 * m1)
    (h2 : (p2.x - p1.x) * (p2.x - p1.x) + (p2.y - p1.y) * (p2.y - p1.y) = m2 * m2)
    (hc : (p0.x - p1.x) * (p2.x - p1.x) + (p0.y - p1.y) * (p2.y - p1.y) = c * (m1 * m2))
    (hlo : -1 ≤ c) (hhi : c ≤ 1) :
    angleBetween p0 p1 p2 = Real.arccos c * (180 / Real.pi) := by
  unfold angleBetween
  simp only [h1, h2, hc, Real.sqrt_mul_self hm1.le, Real.sqrt_mul_self hm2.le]
  rw [if_neg (by push_neg; exact ⟨ne_of_gt hm1, ne_of_gt hm2⟩)]
  have hmm : m1 * m2 ≠ 0 := by positivity
  rw [mul_div_cancel_right₀ _ hmm, min_eq_right hhi, max_eq_right hlo]

/-- A coincident previous vertex gives a zero-length first edge and hence
angle 0 (the `mag1 === 0` guard of `angleBetween`). -/
lemma angleBetween_zero_of_eq_left (p0 p1 p2 : Point) (h : p0 = p1) :
    angleBetween p0 p1 p2 = 0 := by
  subst h
  simp [angleBetween]

/-- A coincident next vertex gives a zero-length second edge and hence
angle 0 (the `mag2 === 0` guard of `angleBetween`). -/
lemma angleBetween_zero_of_eq_right (p0 p1 p2 : Point) (h : p2 = p1) :
    angleBetween p0 p1 p2 = 0 := by
  subst h
  simp [angleBetween]

lemma deg_arccos_zero : Real.arccos 0 * (180 / Real.pi) = 90 := by
  rw [Real.arccos_zero]
  field_simp
  ring

lemma deg_arccos_one : Real.arccos 1 * (180 / Real.pi) = 0 := by
  rw [Real.arccos_one, zero_mul]

lemma arccos_half : Real.arccos (1 / 2) = Real.pi / 3 := by
  rw [← Real.cos_pi_div_three]
  exact Real.arccos_cos (by positivity) (by linarith [Real.pi_pos])

lemma deg_arccos_half : Real.arccos (1 / 2) * (180 / Real.pi) = 60 := by
  rw [arccos_half]
  field_simp
  ring

lemma arccos_neg_half : Real.arccos (-(1 / 2)) = 2 * Real.pi / 3 := by
  have h : Real.cos (2 * Real.pi / 3) = -(1 / 2) := by
    have h23 : 2 * Real.pi / 3 = Real.pi - Real.pi / 3 := by ring
    rw [h23, Real.cos_pi_sub, Real.cos_pi_div_three]
  rw [← h]
  exact Real.arccos_cos (by positivity) (by linarith [Real.pi_pos])

lemma deg_arccos_neg_half : Real.arccos (-(1 / 2)) * (180 / Real.pi) = 120 := by
  rw [arccos_neg_half]
  field_simp
  ring

lemma sqrt_four : Real.sqrt 4 = 2 := by
  rw [show (4 : ℝ) = 2 * 2 by norm_num, Real.sqrt_mul_self (by norm_num : (0 : ℝ) ≤ 2)]

lemma sqrt_nine : Real.sqrt 9 = 3 := by
  rw [show (9 : ℝ) = 3 * 3 by norm_num, Real.sqrt_mul_self (by norm_num : (0 : ℝ) ≤ 3)]

lemma sqrt3_mul_self : Real.sqrt 3 * Real.sqrt 3 = 3 :=
  Real.mul_self_sqrt (by norm_num)

lemma sqrt3_le_two : Real.sqrt 3 ≤ 2 := by
  calc Real.sqrt 3 ≤ Real.sqrt 4 := Real.sqrt_le_sqrt (by norm_num)
  _ = 2 := sqrt_four

lemma sqrt3_ge : (1.5 : ℝ) ≤ Real.sqrt 3 := by
  rw [show (1.5 : ℝ) = Real.sqrt (1.5 * 1.5) from
    (Real.sqrt_mul_self (by norm_num)).symm]
  exact Real.sqrt_le_sqrt (by norm_num)

/-! ### Concrete quadrilaterals used by witnesses and counterexamples -/

/-- An axis-aligned 3×2 rectangle: all interior angles are 90°. -/
def rectPts : List Point := [⟨0, 0⟩, ⟨3, 0⟩, ⟨3, 2⟩, ⟨0, 2⟩]

/-- A 2×2 axis-aligned square. -/
def squarePts : List Point := [⟨0, 0⟩, ⟨2, 0⟩, ⟨2, 2⟩, ⟨0, 2⟩]

/-- A parallelogram with side 2 and interior angles 60°/120°. -/
noncomputable def paraPts : List Point :=
  [⟨0, 0⟩, ⟨2, 0⟩, ⟨3, Real.sqrt 3⟩, ⟨1, Real.sqrt 3⟩]

lemma rect_angle (i : ℕ) (hi : i < 4) : angleAt rectPts i = 90 := by
  have hlen : rectPts.length = 4 := rfl
  interval_cases i
  · rw [angleAt, hlen]
    norm_num [pget, rectPts]
    rw [angleBetween_of_cos _ _ _ 2 3 0 (by norm_num) (by norm_num) (by norm_num)
        (by norm_num) (by norm_num) (by norm_num) (by norm_num), deg_arccos_zero]
  · rw [angleAt, hlen]
    norm_num [pget, rectPts]
    rw [angleBetween_of_cos _ _ _ 3 2 0 (by norm_num) (by norm_num) (by norm_num)
        (by norm_num) (by norm_num) (by norm_num) (by norm_num), deg_arccos_zero]
  · rw [angleAt, hlen]
    norm_num [pget, rectPts]
    rw [angleBetween_of_cos _ _ _ 2 3 0 (by norm_num) (by norm_num) (by norm_num)
        (by norm_num) (by norm_num) (by norm_num) (by norm_num), deg_arccos_zero]
  · rw [angleAt, hlen]
    norm_num [pget, rectPts]
    rw [angleBetween_of_cos _ _ _ 3 2 0 (by norm_num) (by norm_num) (by norm_num)
        (by norm_num) (by norm_num) (by norm_num) (by norm_num), deg_arccos_zero]

lemma square_angle (i : ℕ) (hi : i < 4) : angleAt squarePts i = 90 := by
  have hlen : squarePts.length = 4 := rfl
  interval_cases i <;>
    (rw [angleAt, hlen]
     norm_num [pget, squarePts]
     rw [angleBetween_of_cos _ _ _ 2 2 0 (by norm_num) (by norm_num) (by norm_num)
        (by norm_num) (by norm_num) (by norm_num) (by norm_num), deg_arccos_zero])

lemma para_angle0 : angleAt paraPts 0 = 60 := by
  have hlen : paraPts.length = 4 := rfl
  rw [angleAt, hlen]
  norm_num [pget, paraPts]
  rw [angleBetween_of_cos _ _ _ 2 2 (1 / 2) (by norm_num) (by norm_num)
      (by norm_num [sqrt3_mul_self]) (by norm_num) (by norm_num [sqrt3_mul_self])
      (by norm_num) (by norm_num), deg_arccos_half]

lemma para_angle1 : angleAt paraPts 1 = 120 := by
  have hlen : paraPts.length = 4 := rfl
  rw [angleAt, hlen]
  norm_num [pget, paraPts]
  rw [angleBetween_of_cos _ _ _ 2 2 (-(1 / 2)) (by norm_num) (by norm_num)
      (by norm_num) (by norm_num [sqrt3_mul_self]) (by norm_num [sqrt3_mul_self])
      (by norm_num) (by norm_num), deg_arccos_neg_half]

lemma para_angle2 : angleAt paraPts 2 = 60 := by
  have hlen : paraPts.length = 4 := rfl
  rw [angleAt, hlen]
  norm_num [pget, paraPts]
  rw [angleBetween_of_cos _ _ _ 2 2 (1 / 2) (by norm_num) (by norm_num)
      (by norm_num [sqrt3_mul_self]) (by norm_num) (by norm_num [sqrt3_mul_self])
      (by norm_num) (by norm_num), deg_arccos_half]

lemma para_angle3 : angleAt paraPts 3 = 120 := by
  have hlen : paraPts.length = 4 := rfl
  rw [angleAt, hlen]
  norm_num [pget, paraPts]
  rw [angleBetween_of_cos _ _ _ 2 2 (-(1 / 2)) (by norm_num) (by norm_num)
      (by norm_num) (by norm_num [sqrt3_mul_self]) (by norm_num [sqrt3_mul_self])
      (by norm_num) (by norm_num), deg_arccos_neg_half]

lemma convexSigns_pos (l : List ℝ) (sign : ℝ) (hsign : sign = 0 ∨ sign = 1)
    (hl : ∀ c ∈ l, 0 < c) : convexSigns l sign = true := by
  induction l generalizing sign with
  | nil => rfl
  | cons c rest ih =>
    have hc : 0 < c := hl c (List.mem_cons_self c rest)
    have hrest : ∀ x ∈ rest, 0 < x := fun x hx => hl x (List.mem_cons_of_mem c hx)
    rw [convexSigns, if_pos (ne_of_gt hc)]
    rcases hsign with h0 | h1
    · rw [if_pos h0, if_pos hc]
      exact ih 1 (Or.inr rfl) hrest
    · rw [if_neg (by rw [h1]; norm_num), if_neg (by rw [if_pos hc, h1]; simp)]
      exact ih sign (Or.inr h1) hrest

lemma isConvex_of_crosses_pos (ps : List Point) (h3 : ¬ ps.length < 3)
    (h : ∀ i < ps.length, 0 < crossAt ps i) : isConvex ps = true := by
  rw [isConvex, if_neg h3]
  apply convexSigns_pos _ _ (Or.inl rfl)
  intro c hc
  rcases List.mem_map.mp hc with ⟨i, hi, rfl⟩
  exact h i (List.mem_range.mp hi)

lemma rect_convex : isConvex rectPts = true := by
  apply isConvex_of_crosses_pos _ (by norm_num [rectPts])
  intro i hi
  rw [show rectPts.length = 4 from rfl] at hi
  interval_cases i <;> (rw [crossAt]; norm_num [pget, rectPts])

lemma square_convex : isConvex squarePts = true := by
  apply isConvex_of_crosses_pos _ (by norm_num [squarePts])
  intro i hi
  rw [show squarePts.length = 4 from rfl] at hi
  interval_cases i <;> (rw [crossAt]; norm_num [pget, squarePts])

lemma para_convex : isConvex paraPts = true := by
  apply isConvex_of_crosses_pos _ (by norm_num [paraPts])
  intro i hi
  rw [show paraPts.length = 4 from rfl] at hi
  interval_cases i <;> (rw [crossAt]; norm_num [pget, paraPts])

lemma rect_area : contourArea rectPts = 6 := by
  rw [contourArea, if_neg (by norm_num [rectPts]), show rectPts.length = 4 from rfl,
    Finset.sum_range_succ, Finset.sum_range_succ, Finset.sum_range_succ,
    Finset.sum_range_succ, Finset.sum_range_zero]
  norm_num [pget, rectPts]

lemma square_area : contourArea squarePts = 4 := by
  rw [contourArea, if_neg (by norm_num [squarePts]), show squarePts.length = 4 from rfl,
    Finset.sum_range_succ, Finset.sum_range_succ, Finset.sum_range_succ,
    Finset.sum_range_succ, Finset.sum_range_zero]
  norm_num [pget, squarePts]

lemma para_area : contourArea paraPts = 2 * Real.sqrt 3 := by
  rw [contourArea, if_neg (by norm_num [paraPts]), show paraPts.length = 4 from rfl,
    Finset.sum_range_succ, Finset.sum_range_succ, Finset.sum_range_succ,
    Finset.sum_range_succ, Finset.sum_range_zero]
  norm_num [pget, paraPts]
  rw [show (3 : ℝ) * Real.sqrt 3 - Real.sqrt 3 = 2 * Real.sqrt 3 by ring,
    show (2 : ℝ) * Real.sqrt 3 + 2 * Real.sqrt 3 = 4 * Real.sqrt 3 by ring,
    abs_of_nonneg (by positivity)]
  ring

lemma rect_edge : ∀ i < 4, edgeLength rectPts i = if i % 2 = 0 then 3 else 2 := by
  intro i hi
  interval_cases i <;>
    (rw [edgeLength]
     norm_num [pget, rectPts]
     first
       | exact sqrt_nine
       | exact sqrt_four)

lemma square_edge : ∀ i < 4, edgeLength squarePts i = 2 := by
  intro i hi
  interval_cases i <;>
    (rw [edgeLength]
     norm_num [pget, squarePts]
     exact sqrt_four)

lemma para_edge : ∀ i < 4, edgeLength paraPts i = 2 := by
  intro i hi
  interval_cases i <;>
    (rw [edgeLength]
     norm_num [pget, paraPts, sqrt3_mul_self]
     exact sqrt_four)

lemma rect_aspect : quadAspectRatio rectPts = ((1.5 : ℝ) : EReal) := by
  rw [quadAspectRatio, if_neg (by norm_num [rectPts]),
    rect_edge 0 (by norm_num), rect_edge 1 (by norm_num),
    rect_edge 2 (by norm_num), rect_edge 3 (by norm_num)]
  rw [if_neg (by norm_num)]
  congr 1
  norm_num

lemma square_aspect : quadAspectRatio squarePts = ((1 : ℝ) : EReal) := by
  rw [quadAspectRatio, if_neg (by norm_num [squarePts]),
    square_edge 0 (by norm_num), square_edge 1 (by norm_num),
    square_edge 2 (by norm_num), square_edge 3 (by norm_num)]
  rw [if_neg (by norm_num)]
  congr 1
  norm_num

lemma para_aspect : quadAspectRatio paraPts = ((1 : ℝ) : EReal) := by
  rw [quadAspectRatio, if_neg (by norm_num [paraPts]),
    para_edge 0 (by norm_num), para_edge 1 (by norm_num),
    para_edge 2 (by norm_num), para_edge 3 (by norm_num)]
  rw [if_neg (by norm_num)]
  congr 1
  norm_num

lemma rect_angleScore : computeAngleScore rectPts = 1 := by
  rw [computeAngleScore, if_neg (by norm_num [rectPts]), show rectPts.length = 4 from rfl,
    Finset.sum_range_succ, Finset.sum_range_succ, Finset.sum_range_succ,
    Finset.sum_range_succ, Finset.sum_range_zero,
    rect_angle 0 (by norm_num), rect_angle 1 (by norm_num),
    rect_angle 2 (by norm_num), rect_angle 3 (by norm_num)]
  norm_num

lemma square_angleScore : computeAngleScore squarePts = 1 := by
  rw [computeAngleScore, if_neg (by norm_num [squarePts]), show squarePts.length = 4 from rfl,
    Finset.sum_range_succ, Finset.sum_range_succ, Finset.sum_range_succ,
    Finset.sum_range_succ, Finset.sum_range_zero,
    square_angle 0 (by norm_num), square_angle 1 (by norm_num),
    square_angle 2 (by norm_num), square_angle 3 (by norm_num)]
  norm_num

lemma para_angleScore : computeAngleScore paraPts = 0 := by
  rw [computeAngleScore, if_neg (by norm_num [paraPts]), show paraPts.length = 4 from rfl,
    Finset.sum_range_succ, Finset.sum_range_succ, Finset.sum_range_succ,
    Finset.sum_range_succ, Finset.sum_range_zero,
    para_angle0, para_angle1, para_angle2, para_angle3]
  norm_num

lemma rect_angles_ok (minA maxA : ℝ) (h1 : minA ≤ 90) (h2 : 90 ≤ maxA) :
    hasReasonableAngles rectPts minA maxA := by
  refine ⟨by norm_num [rectPts], fun i hi => ?_⟩
  rw [show rectPts.length = 4 from rfl] at hi
  rw [rect_angle i hi]
  push_neg
  exact ⟨h1, h2⟩

lemma square_angles_ok (minA maxA : ℝ) (h1 : minA ≤ 90) (h2 : 90 ≤ maxA) :
    hasReasonableAngles squarePts minA maxA := by
  refine ⟨by norm_num [squarePts], fun i hi => ?_⟩
  rw [show squarePts.length = 4 from rfl] at hi
  rw [square_angle i hi]
  push_neg
  exact ⟨h1, h2⟩

lemma para_angles_ok (minA maxA : ℝ) (h1 : minA ≤ 60) (h2 : 120 ≤ maxA) :
    hasReasonableAngles paraPts minA maxA := by
  refine ⟨by norm_num [paraPts], fun i hi => ?_⟩
  rw [show paraPts.length = 4 from rfl] at hi
  interval_cases i <;>
    first
      | (rw [para_angle0]; push_neg; constructor <;> linarith)
      | (rw [para_angle1]; push_neg; constructor <;> linarith)
      | (rw [para_angle2]; push_neg; constructor <;> linarith)
      | (rw [para_angle3]; push_neg; constructor <;> linarith)

/-! ### Structural lemmas about the epsilon loop -/

/-- Every candidate emitted by the epsilon loop comes from an admissible
epsilon of the list and is exactly the candidate object built for it. -/
lemma mem_tryEpsilons (approxFn : List Point → ℝ → List Point) (fo : FilterOptions)
    (imageArea minArea maxArea : ℝ) (points : List Point) (epsList : List ℝ)
    (c : Candidate)
    (hc : c ∈ tryEpsilons approxFn fo imageArea minArea maxArea points epsList) :
    ∃ e ∈ epsList, admissibleAt approxFn fo minArea maxArea points e ∧
      c = candidateAt approxFn fo imageArea points e := by
  induction epsList with
  | nil => simp [tryEpsilons] at hc
  | cons e rest ih =>
    rw [tryEpsilons] at hc
    by_cases ha : admissibleAt approxFn fo minArea maxArea points e
    · rw [if_pos ha] at hc
      by_cases hs : (0.5 : ℝ) < (candidateAt approxFn fo imageArea points e).score
      · rw [if_pos hs] at hc
        exact ⟨e, List.mem_cons_self e rest, ha, List.mem_singleton.mp hc⟩
      · rw [if_neg hs] at hc
        rcases List.mem_cons.mp hc with rfl | hmem
        · exact ⟨e, List.mem_cons_self e rest, ha, rfl⟩
        · obtain ⟨f, hf, haf, hcf⟩ := ih hmem
          exact ⟨f, List.mem_cons_of_mem e hf, haf, hcf⟩
    · rw [if_neg ha] at hc
      obtain ⟨f, hf, haf, hcf⟩ := ih hc
      exact ⟨f, List.mem_cons_of_mem e hf, haf, hcf⟩

/-- If no epsilon of the list is admissible, the epsilon loop emits nothing. -/
lemma tryEpsilons_of_not_admissible (approxFn : List Point → ℝ → List Point)
    (fo : FilterOptions) (imageArea minArea maxArea : ℝ) (points : List Point)
    (epsList : List ℝ)
    (h : ∀ e ∈ epsList, ¬ admissibleAt approxFn fo minArea maxArea points e) :
    tryEpsilons approxFn fo imageArea minArea maxArea points epsList = [] := by
  induction epsList with
  | nil => rfl
  | cons e rest ih =>
    rw [tryEpsilons, if_neg (h e (List.mem_cons_self e rest))]
    exact ih fun f hf => h f (List.mem_cons_of_mem e hf)

/-- Every candidate of the full filter run comes from a contour with at
least four points and an admissible epsilon. -/
lemma mem_findCandidates (approxFn : List Point → ℝ → List Point)
    (contours : List (List Point)) (imageWidth imageHeight : ℝ) (fo : FilterOptions)
    (c : Candidate)
    (hc : c ∈ findDocumentContourCandidates approxFn contours imageWidth imageHeight fo) :
    ∃ points ∈ contours, ¬ points.length < 4 ∧ ∃ e ∈ epsilonList fo,
      admissibleAt approxFn fo (imageWidth * imageHeight * fo.minAreaRatio)
        (imageWidth * imageHeight * fo.maxAreaRatio) points e ∧
      c = candidateAt approxFn fo (imageWidth * imageHeight) points e := by
  rw [findDocumentContourCandidates] at hc
  rcases List.mem_flatten.mp hc with ⟨l, hl, hcl⟩
  rcases List.mem_map.mp hl with ⟨points, hpts, rfl⟩
  by_cases h4 : points.length < 4
  · rw [if_pos h4] at hcl
    simp at hcl
  · rw [if_neg h4] at hcl
    obtain ⟨e, he, ha, hce⟩ := mem_tryEpsilons _ _ _ _ _ _ _ _ hcl
    exact ⟨points, hpts, h4, e, he, ha, hce⟩

/-! ### A concrete filter run used by several witnesses -/

/-- Filter options for the demonstration runs: an explicit epsilon list and
the angle bounds 60°/120° (the own defaults of `findDocumentContour`). -/
noncomputable def demoOptions : FilterOptions :=
  { minAreaRatio := 0.15
    maxAreaRatio := 0.98
    minAngle := 60
    maxAngle := 120
    epsilon := 0.02
    areaWeight := 0.4
    angleWeight := 0.6
    minAspectRatio := 0.3
    maxAspectRatio := 3.0
    epsilonValues := some [0.01, 0.02, 0.03] }

/-- A polygon-approximation oracle (the external operator is a parameter of
the embedding): tolerance 0.01 approximates to the 60°/120° parallelogram,
0.02 to the 3×2 rectangle, anything else to the square. -/
noncomputable def demoApprox : List Point → ℝ → List Point :=
  fun _ eps => if eps = 0.01 then paraPts else if eps = 0.02 then rectPts else squarePts

lemma demoApprox_e1 (pts : List Point) : demoApprox pts 0.01 = paraPts := by
  rw [demoApprox]
  norm_num

lemma demoApprox_e2 (pts : List Point) : demoApprox pts 0.02 = rectPts := by
  rw [demoApprox]
  norm_num

lemma demoApprox_e3 (pts : List Point) : demoApprox pts 0.03 = squarePts := by
  rw [demoApprox]
  norm_num

lemma demo_admissible_e1 :
    admissibleAt demoApprox demoOptions (4 * 3 * demoOptions.minAreaRatio)
      (4 * 3 * demoOptions.maxAreaRatio) rectPts 0.01 := by
  rw [admissibleAt, demoApprox_e1]
  refine ⟨by norm_num [paraPts], ?_, para_convex, ?_, ?_⟩
  · rw [para_area]
    push_neg
    simp only [demoOptions]
    constructor <;> nlinarith [sqrt3_ge, sqrt3_le_two]
  · exact para_angles_ok _ _ (by norm_num [demoOptions]) (by norm_num [demoOptions])
  · rw [para_aspect]
    push_neg
    simp only [demoOptions]
    constructor <;>
      (rw [EReal.coe_le_coe_iff]
       norm_num)

lemma demo_admissible_e2 :
    admissibleAt demoApprox demoOptions (4 * 3 * demoOptions.minAreaRatio)
      (4 * 3 * demoOptions.maxAreaRatio) rectPts 0.02 := by
  rw [admissibleAt, demoApprox_e2]
  refine ⟨by norm_num [rectPts], ?_, rect_convex, ?_, ?_⟩
  · rw [rect_area]
    push_neg
    simp only [demoOptions]
    constructor <;> norm_num
  · exact rect_angles_ok _ _ (by norm_num [demoOptions]) (by norm_num [demoOptions])
  · rw [rect_aspect]
    push_neg
    simp only [demoOptions]
    constructor <;>
      (rw [EReal.coe_le_coe_iff]
       norm_num)

lemma demo_admissible_e3 :
    admissibleAt demoApprox demoOptions (4 * 3 * demoOptions.minAreaRatio)
      (4 * 3 * demoOptions.maxAreaRatio) rectPts 0.03 := by
  rw [admissibleAt, demoApprox_e3]
  refine ⟨by norm_num [squarePts], ?_, square_convex, ?_, ?_⟩
  · rw [square_area]
    push_neg
    simp only [demoOptions]
    constructor <;> norm_num
  · exact square_angles_ok _ _ (by norm_num [demoOptions]) (by norm_num [demoOptions])
  · rw [square_aspect]
    push_neg
    simp only [demoOptions]
    constructor <;>
      (rw [EReal.coe_le_coe_iff]
       norm_num)

lemma demo_score_e1 :
    (candidateAt demoApprox demoOptions (4 * 3) rectPts 0.01).score ≤ 0.5 := by
  show demoOptions.areaWeight * (contourArea (demoApprox rectPts 0.01) / (4 * 3)) +
    demoOptions.angleWeight * computeAngleScore (demoApprox rectPts 0.01) ≤ 0.5
  rw [demoApprox_e1, para_area, para_angleScore]
  simp only [demoOptions]
  nlinarith [sqrt3_le_two]

lemma demo_score_e2 :
    (0.5 : ℝ) < (candidateAt demoApprox demoOptions (4 * 3) rectPts 0.02).score := by
  show (0.5 : ℝ) < demoOptions.areaWeight * (contourArea (demoApprox rectPts 0.02) / (4 * 3)) +
    demoOptions.angleWeight * computeAngleScore (demoApprox rectPts 0.02)
  rw [demoApprox_e2, rect_area, rect_angleScore]
  simp only [demoOptions]
  norm_num

lemma demo_score_e3 :
    (0.5 : ℝ) < (candidateAt demoApprox demoOptions (4 * 3) rectPts 0.03).score := by
  show (0.5 : ℝ) < demoOptions.areaWeight * (contourArea (demoApprox rectPts 0.03) / (4 * 3)) +
    demoOptions.angleWeight * computeAngleScore (demoApprox rectPts 0.03)
  rw [demoApprox_e3, square_area, square_angleScore]
  simp only [demoOptions]
  norm_num

/-- The epsilon loop of the demonstration run: the parallelogram candidate
(score ≤ 0.5) is emitted at tolerance 0.01, the rectangle candidate
(score > 0.5) at 0.02, and 0.03 is never tried. -/
lemma demo_try_run :
    tryEpsilons demoApprox demoOptions (4 * 3) (4 * 3 * demoOptions.minAreaRatio)
      (4 * 3 * demoOptions.maxAreaRatio) rectPts [0.01, 0.02, 0.03] =
      [candidateAt demoApprox demoOptions (4 * 3) rectPts 0.01,
       candidateAt demoApprox demoOptions (4 * 3) rectPts 0.02] := by
  rw [tryEpsilons, if_pos demo_admissible_e1, if_neg (not_lt.mpr demo_score_e1),
    tryEpsilons, if_pos demo_admissible_e2, if_pos demo_score_e2]

/-- The full demonstration run on the single raw contour `rectPts` in a
4×3 image. -/
lemma demo_run :
    findDocumentContourCandidates demoApprox [rectPts] 4 3 demoOptions =
      [candidateAt demoApprox demoOptions (4 * 3) rectPts 0.01,
       candidateAt demoApprox demoOptions (4 * 3) rectPts 0.02] := by
  rw [findDocumentContourCandidates]
  rw [show epsilonList demoOptions = [0.01, 0.02, 0.03] from rfl]
  rw [List.map_cons, List.map_nil, if_neg (by norm_num [rectPts]), demo_try_run]
  rfl

/-! ### Claim C6: per-contour epsilon early exit -/

/-- C6 (amended): for every contour, the filter tries the epsilon values in
order and, as soon as an emitted candidate has score strictly above 0.5, no
later epsilon is tried.  Consequently every emitted candidate except
possibly the final one has score ≤ 0.5, and a candidate with score above 0.5
is the final one — i.e. it belongs to the first epsilon whose emitted
candidate clears 0.5, which need not be the first admissible epsilon nor
the best-scoring one. -/
theorem epsilon_early_exit (approxFn : List Point → ℝ → List Point) (fo : FilterOptions)
    (imageArea minArea maxArea : ℝ) (points : List Point) (epsList : List ℝ) :
    (∀ c ∈ (tryEpsilons approxFn fo imageArea minArea maxArea points epsList).dropLast,
      c.score ≤ 0.5) ∧
    (∀ c ∈ tryEpsilons approxFn fo imageArea minArea maxArea points epsList,
      (0.5 : ℝ) < c.score →
      (tryEpsilons approxFn fo imageArea minArea maxArea points epsList).getLast? =
        some c) := by
  induction epsList with
  | nil => exact ⟨by simp [tryEpsilons], by simp [tryEpsilons]⟩
  | cons e rest ih =>
    rw [tryEpsilons]
    by_cases ha : admissibleAt approxFn fo minArea maxArea points e
    · rw [if_pos ha]
      by_cases hs : (0.5 : ℝ) < (candidateAt approxFn fo imageArea points e).score
      · rw [if_pos hs]
        refine ⟨by simp, fun c hc h5 => ?_⟩
        rcases List.mem_singleton.mp hc with rfl
        rfl
      · rw [if_neg hs]
        cases hr : tryEpsilons approxFn fo imageArea minArea maxArea points rest with
        | nil =>
          refine ⟨by simp, fun c hc h5 => ?_⟩
          rcases List.mem_singleton.mp hc with rfl
          exact absurd h5 hs
        | cons r t =>
          rw [hr] at ih
          constructor
          · intro c hc
            rw [show ((candidateAt approxFn fo imageArea points e :: r :: t).dropLast =
                candidateAt approxFn fo imageArea points e :: (r :: t).dropLast)
              from rfl] at hc
            rcases List.mem_cons.mp hc with rfl | hmem
            · exact not_lt.mp hs
            · exact ih.1 c hmem
          · intro c hc h5
            rcases List.mem_cons.mp hc with rfl | hmem
            · exact absurd h5 hs
            · rw [List.getLast?_cons_cons]
              exact ih.2 c hmem h5
    · rw [if_neg ha]
      exact ih

/-- C6 (amended) witness: in the demonstration run the non-final
(parallelogram) candidate has score at most 0.5. -/
theorem epsilon_early_exit_witness :
    (candidateAt demoApprox demoOptions (4 * 3) rectPts 0.01).score ≤ 0.5 := by
  have h := (epsilon_early_exit demoApprox demoOptions (4 * 3)
    (4 * 3 * demoOptions.minAreaRatio) (4 * 3 * demoOptions.maxAreaRatio) rectPts
    [0.01, 0.02, 0.03]).1
  rw [demo_try_run] at h
  exact h _ (by simp)

/-- C6 (counterexample): the claim that the unique candidate with score
above 0.5 corresponds to the FIRST ADMISSIBLE epsilon is false.  In the
demonstration run the epsilon 0.01 is admissible (its parallelogram
candidate is emitted, score ≤ 0.5), the score above 0.5 is reached only by
the second admissible epsilon 0.02, and the also-admissible epsilon 0.03 is
never tried (only two candidates are emitted, with epsilons 0.01 and 0.02). -/
theorem epsilon_first_admissible_counterexample :
    findDocumentContourCandidates demoApprox [rectPts] 4 3 demoOptions =
      [candidateAt demoApprox demoOptions (4 * 3) rectPts 0.01,
       candidateAt demoApprox demoOptions (4 * 3) rectPts 0.02] ∧
    admissibleAt demoApprox demoOptions (4 * 3 * demoOptions.minAreaRatio)
      (4 * 3 * demoOptions.maxAreaRatio) rectPts 0.01 ∧
    (candidateAt demoApprox demoOptions (4 * 3) rectPts 0.01).score ≤ 0.5 ∧
    (0.5 : ℝ) < (candidateAt demoApprox demoOptions (4 * 3) rectPts 0.02).score ∧
    (candidateAt demoApprox demoOptions (4 * 3) rectPts 0.01).epsilon = 0.01 ∧
    (candidateAt demoApprox demoOptions (4 * 3) rectPts 0.02).epsilon = 0.02 ∧
    (0.02 : ℝ) ≠ 0.01 ∧
    admissibleAt demoApprox demoOptions (4 * 3 * demoOptions.minAreaRatio)
      (4 * 3 * demoOptions.maxAreaRatio) rectPts 0.03 ∧
    (findDocumentContourCandidates demoApprox [rectPts] 4 3 demoOptions).length = 2 :=
  ⟨demo_run, demo_admissible_e1, demo_score_e1, demo_score_e2, rfl, rfl, by norm_num,
   demo_admissible_e3, by rw [demo_run]; rfl⟩

/-! ### Claim C9: composite score linearity -/

/-- C9: every candidate emitted by the filter has score exactly
`areaWeight * (area / imageArea) + angleWeight * angleScore`, and for two
candidates of the same run with equal angle scores the score difference is
exactly `areaWeight * (area difference) / imageArea`. -/
theorem score_linear_in_area (approxFn : List Point → ℝ → List Point)
    (contours : List (List Point)) (imageWidth imageHeight : ℝ) (fo : FilterOptions)
    (c1 c2 : Candidate)
    (h1 : c1 ∈ findDocumentContourCandidates approxFn contours imageWidth imageHeight fo)
    (h2 : c2 ∈ findDocumentContourCandidates approxFn contours imageWidth imageHeight fo) :
    c1.score = fo.areaWeight * (c1.area / (imageWidth * imageHeight)) +
      fo.angleWeight * c1.angleScore ∧
    (c1.angleScore = c2.angleScore →
      c1.score - c2.score =
        fo.areaWeight * (c1.area - c2.area) / (imageWidth * imageHeight)) := by
  obtain ⟨p1, -, -, e1, -, -, rfl⟩ := mem_findCandidates _ _ _ _ _ _ h1
  obtain ⟨p2, -, -, e2, -, -, rfl⟩ := mem_findCandidates _ _ _ _ _ _ h2
  refine ⟨rfl, fun hang => ?_⟩
  have hang2 : computeAngleScore (approxFn p1 e1) = computeAngleScore (approxFn p2 e2) :=
    hang
  show fo.areaWeight * (contourArea (approxFn p1 e1) / (imageWidth * imageHeight)) +
      fo.angleWeight * computeAngleScore (approxFn p1 e1) -
      (fo.areaWeight * (contourArea (approxFn p2 e2) / (imageWidth * imageHeight)) +
        fo.angleWeight * computeAngleScore (approxFn p2 e2)) =
    fo.areaWeight * (contourArea (approxFn p1 e1) - contourArea (approxFn p2 e2)) /
      (imageWidth * imageHeight)
  rw [hang2]
  ring

/-- C9 witness: applied to the rectangle candidate of the demonstration run
(taken twice), the score difference law gives 0 = 0 after discharging the
membership hypotheses on a concrete run. -/
theorem score_linear_in_area_witness :
    (candidateAt demoApprox demoOptions (4 * 3) rectPts 0.02).score -
      (candidateAt demoApprox demoOptions (4 * 3) rectPts 0.02).score =
    demoOptions.areaWeight *
      ((candidateAt demoApprox demoOptions (4 * 3) rectPts 0.02).area -
        (candidateAt demoApprox demoOptions (4 * 3) rectPts 0.02).area) / (4 * 3) :=
  (score_linear_in_area demoApprox [rectPts] 4 3 demoOptions _ _
    (by rw [demo_run]; simp) (by rw [demo_run]; simp)).2 rfl

/-! ### Driver configuration defaulting (index.js, filterOptions) -/

/-- The `contourFilter` option group as the caller may provide it (absent
fields modelled as `none`). -/
structure ContourFilterConfig where
  minAreaRatio : Option ℝ
  maxAreaRatio : Option ℝ
  angleRange : Option (ℝ × ℝ)
  areaWeight : Option ℝ
  angleWeight : Option ℝ
  minAspectRatio : Option ℝ
  maxAspectRatio : Option ℝ
  epsilonValues : Option (List ℝ)

/-- The caller options consumed by the embedded driver fragment. -/
structure DriverOptions where
  contourFilter : Option ContourFilterConfig
  epsilon : Option ℝ
  useFallback : Option Bool

/-- JS numeric defaulting `x || d`: an absent value, and also the falsy
number 0, falls back to the default. -/
noncomputable def jsOr (x : Option ℝ) (d : ℝ) : ℝ :=
  match x with
  | none => d
  | some v => if v = 0 then d else v

/-- The `filterOptions` record built by `detectDocumentInternal`
(index.js lines 1258–1268), with all the `||` defaults. -/
noncomputable def mkFilterOptions (o : DriverOptions) : FilterOptions :=
  { minAreaRatio := jsOr (o.contourFilter.bind fun c => c.minAreaRatio) 0.15
    maxAreaRatio := jsOr (o.contourFilter.bind fun c => c.maxAreaRatio) 0.98
    minAngle := jsOr ((o.contourFilter.bind fun c => c.angleRange).map Prod.fst) 70
    maxAngle := jsOr ((o.contourFilter.bind fun c => c.angleRange).map Prod.snd) 110
    epsilon := jsOr o.epsilon 0.02
    areaWeight := jsOr (o.contourFilter.bind fun c => c.areaWeight) 0.4
    angleWeight := jsOr (o.contourFilter.bind fun c => c.angleWeight) 0.6
    minAspectRatio := jsOr (o.contourFilter.bind fun c => c.minAspectRatio) 0.3
    maxAspectRatio := jsOr (o.contourFilter.bind fun c => c.maxAspectRatio) 3.0
    epsilonValues := o.contourFilter.bind fun c => c.epsilonValues }

/-- Driver options with nothing configured at all. -/
def emptyOpts : DriverOptions := ⟨none, none, none⟩

/-! ### Claim C4: default interior-angle admissibility bounds -/

/-- C4: when the caller does not configure `contourFilter.angleRange`, the
driver passes `minAngle = 70` and `maxAngle = 110` to the filter; every
candidate the filter then emits satisfies `hasReasonableAngles` with those
bounds, so all its vertex angles lie in [70°, 110°]; and any polygon with a
vertex angle inside (60°, 70°) or (110°, 120°) fails the angle check with
those bounds and is therefore rejected. -/
theorem default_angle_bounds (o : DriverOptions)
    (hnone : (o.contourFilter.bind fun c => c.angleRange) = none) :
    (mkFilterOptions o).minAngle = 70 ∧ (mkFilterOptions o).maxAngle = 110 ∧
    (∀ (approxFn : List Point → ℝ → List Point) (contours : List (List Point))
        (imageWidth imageHeight : ℝ) (c : Candidate),
      c ∈ findDocumentContourCandidates approxFn contours imageWidth imageHeight
        (mkFilterOptions o) →
      ∀ i < c.approx.length, 70 ≤ angleAt c.approx i ∧ angleAt c.approx i ≤ 110) ∧
    (∀ (quad : List Point) (i : ℕ), i < quad.length →
      (60 < angleAt quad i ∧ angleAt quad i < 70) ∨
        (110 < angleAt quad i ∧ angleAt quad i < 120) →
      ¬ hasReasonableAngles quad 70 110) := by
  have hmin : (mkFilterOptions o).minAngle = 70 := by
    simp [mkFilterOptions, hnone, jsOr]
  have hmax : (mkFilterOptions o).maxAngle = 110 := by
    simp [mkFilterOptions, hnone, jsOr]
  refine ⟨hmin, hmax, ?_, ?_⟩
  · intro approxFn contours imageWidth imageHeight c hc i hi
    obtain ⟨pts, -, -, e, -, ha, rfl⟩ := mem_findCandidates _ _ _ _ _ _ hc
    have hang := ha.2.2.2.1
    rw [hmin, hmax] at hang
    have happrox :
        (candidateAt approxFn (mkFilterOptions o) (imageWidth * imageHeight) pts e).approx =
          approxFn pts e := rfl
    rw [happrox] at hi ⊢
    have h := hang.2 i hi
    push_neg at h
    exact ⟨h.1, h.2⟩
  · intro quad i hq hint hre
    rcases hint with ⟨h1, h2⟩ | ⟨h1, h2⟩
    · exact (hre.2 i hq) (Or.inl h2)
    · exact (hre.2 i hq) (Or.inr h1)

lemma default_fo_eq : mkFilterOptions emptyOpts =
    { minAreaRatio := 0.15
      maxAreaRatio := 0.98
      minAngle := 70
      maxAngle := 110
      epsilon := 0.02
      areaWeight := 0.4
      angleWeight := 0.6
      minAspectRatio := 0.3
      maxAspectRatio := 3.0
      epsilonValues := none } := rfl

lemma rect_admissible_default :
    admissibleAt (fun _ _ => rectPts) (mkFilterOptions emptyOpts)
      (4 * 3 * (mkFilterOptions emptyOpts).minAreaRatio)
      (4 * 3 * (mkFilterOptions emptyOpts).maxAreaRatio) rectPts
      ((mkFilterOptions emptyOpts).epsilon * 0.5) := by
  rw [default_fo_eq, admissibleAt]
  refine ⟨by norm_num [rectPts], ?_, rect_convex, ?_, ?_⟩
  · rw [rect_area]
    push_neg
    constructor <;> norm_num
  · exact rect_angles_ok _ _ (by norm_num) (by norm_num)
  · rw [rect_aspect]
    push_neg
    constructor <;>
      (rw [EReal.coe_le_coe_iff]
       norm_num)

lemma rect_score_default :
    (0.5 : ℝ) < (candidateAt (fun _ _ => rectPts) (mkFilterOptions emptyOpts) (4 * 3)
      rectPts ((mkFilterOptions emptyOpts).epsilon * 0.5)).score := by
  show (0.5 : ℝ) < (mkFilterOptions emptyOpts).areaWeight * (contourArea rectPts / (4 * 3)) +
    (mkFilterOptions emptyOpts).angleWeight * computeAngleScore rectPts
  rw [default_fo_eq, rect_area, rect_angleScore]
  norm_num

/-- The filter run with the unconfigured driver defaults: the rectangle is
admitted at the first derived epsilon and its score 0.8 stops the loop. -/
lemma default_run :
    findDocumentContourCandidates (fun _ _ => rectPts) [rectPts] 4 3
      (mkFilterOptions emptyOpts) =
      [candidateAt (fun _ _ => rectPts) (mkFilterOptions emptyOpts) (4 * 3) rectPts
        ((mkFilterOptions emptyOpts).epsilon * 0.5)] := by
  rw [findDocumentContourCandidates]
  rw [show epsilonList (mkFilterOptions emptyOpts) =
    [(mkFilterOptions emptyOpts).epsilon * 0.5, (mkFilterOptions emptyOpts).epsilon * 0.75,
      (mkFilterOptions emptyOpts).epsilon, (mkFilterOptions emptyOpts).epsilon * 1.5,
      (mkFilterOptions emptyOpts).epsilon * 2.0] from rfl]
  rw [List.map_cons, List.map_nil, if_neg (by norm_num [rectPts])]
  rw [tryEpsilons, if_pos rect_admissible_default, if_pos rect_score_default]
  rfl

/-- A quadrilateral whose interior angle at vertex 0 is `arccos(2/5)` in
degrees, which lies strictly between 60° and 70°. -/
noncomputable def badQuad : List Point :=
  [⟨0, 0⟩, ⟨1, 0⟩, ⟨2, 2⟩, ⟨2 / 5, Real.sqrt 21 / 5⟩]

lemma badQuad_angle0 : angleAt badQuad 0 = Real.arccos (2 / 5) * (180 / Real.pi) := by
  have h21 : Real.sqrt 21 * Real.sqrt 21 = 21 := Real.mul_self_sqrt (by norm_num)
  rw [angleAt, show badQuad.length = 4 from rfl]
  norm_num [pget, badQuad]
  rw [angleBetween_of_cos _ _ _ 1 1 (2 / 5) (by norm_num) (by norm_num)
      (by norm_num; linear_combination h21 / 25) (by norm_num)
      (by norm_num) (by norm_num) (by norm_num)]

lemma arccos_two_fifths_gt : Real.pi / 3 < Real.arccos (2 / 5) := by
  have hmem1 : Real.pi / 3 ∈ Set.Icc (0 : ℝ) Real.pi := by
    constructor <;> [positivity; linarith [Real.pi_pos]]
  have hmem2 : Real.arccos (2 / 5) ∈ Set.Icc (0 : ℝ) Real.pi :=
    ⟨Real.arccos_nonneg _, Real.arccos_le_pi _⟩
  have hcos : Real.cos (Real.arccos (2 / 5)) < Real.cos (Real.pi / 3) := by
    rw [Real.cos_arccos (by norm_num) (by norm_num), Real.cos_pi_div_three]
    norm_num
  exact (Real.strictAntiOn_cos.lt_iff_lt hmem2 hmem1).mp hcos

lemma arccos_two_fifths_lt : Real.arccos (2 / 5) < 7 * Real.pi / 18 := by
  have hmem1 : Real.arccos (2 / 5) ∈ Set.Icc (0 : ℝ) Real.pi :=
    ⟨Real.arccos_nonneg _, Real.arccos_le_pi _⟩
  have hmem2 : 7 * Real.pi / 18 ∈ Set.Icc (0 : ℝ) Real.pi := by
    constructor <;> [positivity; linarith [Real.pi_pos]]
  have hsin : Real.cos (7 * Real.pi / 18) = Real.sin (Real.pi / 9) := by
    rw [show 7 * Real.pi / 18 = Real.pi / 2 - Real.pi / 9 by ring,
      Real.cos_pi_div_two_sub]
  have hlt : Real.cos (7 * Real.pi / 18) < Real.cos (Real.arccos (2 / 5)) := by
    rw [hsin, Real.cos_arccos (by norm_num) (by norm_num)]
    have h1 : Real.sin (Real.pi / 9) < Real.pi / 9 := Real.sin_lt (by positivity)
    have h2 : Real.pi / 9 < 2 / 5 := by linarith [Real.pi_lt_d2]
    linarith
  exact (Real.strictAntiOn_cos.lt_iff_lt hmem2 hmem1).mp hlt

lemma badQuad_angle0_bounds : 60 < angleAt badQuad 0 ∧ angleAt badQuad 0 < 70 := by
  rw [badQuad_angle0]
  have hpi : (0 : ℝ) < Real.pi := Real.pi_pos
  have hconv : (0 : ℝ) < 180 / Real.pi := by positivity
  constructor
  · have h := mul_lt_mul_of_pos_right arccos_two_fifths_gt hconv
    have heq : Real.pi / 3 * (180 / Real.pi) = 60 := by
      field_simp
      ring
    linarith [h, heq.symm.le]
  · have h := mul_lt_mul_of_pos_right arccos_two_fifths_lt hconv
    have heq : 7 * Real.pi / 18 * (180 / Real.pi) = 70 := by
      field_simp
      ring
    linarith [h, heq.symm.le]

/-- C4 witness: the rectangle candidate emitted under the unconfigured
defaults has its vertex-0 angle inside [70°, 110°], and the concrete
quadrilateral with a 63.4°-ish vertex angle is rejected by the 70°/110°
angle check. -/
theorem default_angle_bounds_witness :
    (70 ≤ angleAt (candidateAt (fun _ _ => rectPts) (mkFilterOptions emptyOpts) (4 * 3)
        rectPts ((mkFilterOptions emptyOpts).epsilon * 0.5)).approx 0 ∧
      angleAt (candidateAt (fun _ _ => rectPts) (mkFilterOptions emptyOpts) (4 * 3)
        rectPts ((mkFilterOptions emptyOpts).epsilon * 0.5)).approx 0 ≤ 110) ∧
    ¬ hasReasonableAngles badQuad 70 110 := by
  constructor
  · exact (default_angle_bounds emptyOpts rfl).2.2.1 (fun _ _ => rectPts) [rectPts] 4 3 _
      (by rw [default_run]; exact List.mem_singleton.mpr rfl) 0
      (show 0 < rectPts.length by norm_num [rectPts])
  · exact (default_angle_bounds emptyOpts rfl).2.2.2 badQuad 0 (by norm_num [badQuad])
      (Or.inl badQuad_angle0_bounds)

/-! ### Claim C7: zero height rejects the quadrilateral -/

/-- C7: a quadrilateral whose mean of the second and fourth edge lengths is
zero gets aspect ratio `Infinity` (`⊤`), which lies outside
`[minAspectRatio, maxAspectRatio]` for every real `maxAspectRatio`, so the
aspect check always rejects it; consequently no emitted candidate ever has a
degenerate height. -/
theorem zero_height_rejected (ps : List Point) (h4 : ps.length = 4)
    (hh : (edgeLength ps 1 + edgeLength ps 3) / 2 = 0) :
    quadAspectRatio ps = (⊤ : EReal) ∧
    (∀ minA maxA : ℝ,
      quadAspectRatio ps < (minA : EReal) ∨ (maxA : EReal) < quadAspectRatio ps) ∧
    (∀ (approxFn : List Point → ℝ → List Point) (fo : FilterOptions)
        (imageArea minArea maxArea : ℝ) (points : List Point) (epsList : List ℝ)
        (c : Candidate),
      c ∈ tryEpsilons approxFn fo imageArea minArea maxArea points epsList →
      (edgeLength c.approx 1 + edgeLength c.approx 3) / 2 ≠ 0) := by
  have htop : quadAspectRatio ps = ⊤ := by
    rw [quadAspectRatio, if_neg (by rw [h4]; norm_num), if_pos hh]
  refine ⟨htop, fun minA maxA => Or.inr (htop ▸ EReal.coe_lt_top maxA), ?_⟩
  intro approxFn fo imageArea minArea maxArea points epsList c hc hzero
  obtain ⟨e, -, ha, rfl⟩ := mem_tryEpsilons _ _ _ _ _ _ _ _ hc
  have happrox :
      (candidateAt approxFn fo imageArea points e).approx = approxFn points e := rfl
  rw [happrox] at hzero
  apply ha.2.2.2.2
  right
  have htop2 : quadAspectRatio (approxFn points e) = ⊤ := by
    rw [quadAspectRatio, if_neg (by rw [ha.1]; norm_num), if_pos hzero]
  rw [htop2]
  exact EReal.coe_lt_top _

/-- A fully degenerate quadrilateral: four copies of the origin. -/
def degeneratePts : List Point := [⟨0, 0⟩, ⟨0, 0⟩, ⟨0, 0⟩, ⟨0, 0⟩]

lemma degenerate_height : (edgeLength degeneratePts 1 + edgeLength degeneratePts 3) / 2 = 0 := by
  rw [edgeLength, edgeLength]
  norm_num [pget, degeneratePts]

/-- C7 witness: the all-origin quadrilateral has aspect ratio `⊤`, which the
default bounds 0.3 and 3.0 reject. -/
theorem zero_height_rejected_witness :
    quadAspectRatio degeneratePts = (⊤ : EReal) ∧
    (quadAspectRatio degeneratePts < ((0.3 : ℝ) : EReal) ∨
      ((3.0 : ℝ) : EReal) < quadAspectRatio degeneratePts) :=
  ⟨(zero_height_rejected degeneratePts rfl degenerate_height).1,
   (zero_height_rejected degeneratePts rfl degenerate_height).2.1 0.3 3.0⟩

/-! ### Claim C10: repeated vertices give angle 0, not a division by zero -/

/-- C10: a coincident adjacent vertex makes an incident edge have zero
length, `angleBetween` then returns 0 through its magnitude guard (no
division by the zero magnitude is used), and `hasReasonableAngles` rejects
the polygon whenever `minAngle > 0`. -/
theorem repeated_vertex_angle_zero :
    (∀ p0 p1 p2 : Point, p0 = p1 ∨ p2 = p1 → angleBetween p0 p1 p2 = 0) ∧
    ∀ (ps : List Point) (minA maxA : ℝ), 0 < minA →
      (∃ i < ps.length,
        pget ps ((i + ps.length - 1) % ps.length) = pget ps i ∨
        pget ps ((i + 1) % ps.length) = pget ps i) →
      ¬ hasReasonableAngles ps minA maxA := by
  constructor
  · intro p0 p1 p2 h
    rcases h with h | h
    · exact angleBetween_zero_of_eq_left _ _ _ h
    · exact angleBetween_zero_of_eq_right _ _ _ h
  · rintro ps minA maxA hmin ⟨i, hi, hdeg⟩ hre
    have hang : angleAt ps i = 0 := by
      rw [angleAt]
      rcases hdeg with h | h
      · exact angleBetween_zero_of_eq_left _ _ _ h
      · exact angleBetween_zero_of_eq_right _ _ _ h
    exact (hre.2 i hi) (Or.inl (by rw [hang]; exact hmin))

/-- A quadrilateral with a repeated first vertex. -/
def repeatedVertexPts : List Point := [⟨0, 0⟩, ⟨0, 0⟩, ⟨2, 0⟩, ⟨2, 2⟩]

/-- C10 witness: the quadrilateral with a repeated vertex is rejected by the
driver-default angle bounds 70°/110°. -/
theorem repeated_vertex_angle_zero_witness :
    ¬ hasReasonableAngles repeatedVertexPts 70 110 :=
  repeated_vertex_angle_zero.2 repeatedVertexPts 70 110 (by norm_num)
    ⟨1, by norm_num [repeatedVertexPts], Or.inl rfl⟩

/-! ### Multi-strategy driver (detectDocumentInternal, index.js)

The external collaborators are parameters: `approxFn` is the
polygon-approximation operator, `cornersOf` the corner-ordering routine
(`findCornerPoints`), and the three contour lists are the outputs of the
external contour tracer on each preprocessed image (Enhanced pipeline,
Canny-Fallback edges, Canny-Default edges).  `enhancedContours = none`
models the Enhanced strategy throwing (its `try`/`catch` contributes no
candidates). -/

/-- The ordered corner set produced by the external `findCornerPoints`. -/
structure Corners where
  topLeft : Point
  topRight : Point
  bottomRight : Point
  bottomLeft : Point

/-- Corner scaling back to the original resolution (index.js 1446–1451). -/
noncomputable def scalePoint (s : ℝ) (p : Point) : Point := ⟨p.x * s, p.y * s⟩

/-- Scales all four corners by the scale factor. -/
noncomputable def scaleCorners (s : ℝ) (c : Corners) : Corners :=
  ⟨scalePoint s c.topLeft, scalePoint s c.topRight, scalePoint s c.bottomRight,
    scalePoint s c.bottomLeft⟩

/-- The strategy tag attached to each pooled candidate. -/
inductive Strategy
  | enhanced
  | cannyFallback
  | cannyDefault

/-- A pooled candidate with its strategy tag. -/
structure Tagged where
  cand : Candidate
  strategy : Strategy

/-- The descending-score order of the final
`allCandidates.sort((a, b) => b.score - a.score)`. -/
def taggedGE (a b : Tagged) : Prop := b.cand.score ≤ a.cand.score

instance : IsTotal Tagged taggedGE :=
  ⟨fun a b => le_total b.cand.score a.cand.score⟩

instance : IsTrans Tagged taggedGE :=
  ⟨fun _ _ _ h1 h2 => le_trans h2 h1⟩

/-- The structured result of `detectDocumentInternal` (its three return
shapes; the timing bookkeeping is out of scope). -/
inductive DetectResult
  | noDocument
  | noCorners
  | detected (contour : List Point) (corners : Corners)

/-- The `success` flag of the returned object: true only for a full
detection; the no-document and no-corner-points results carry false. -/
def DetectResult.success : DetectResult → Bool
  | DetectResult.detected _ _ => true
  | _ => false

/-- One strategy block: when the traced contour list is nonempty, run the
filter and contribute the (at most one) filtered candidate with the
strategy tag. -/
noncomputable def strategyCandidates (approxFn : List Point → ℝ → List Point)
    (width height : ℝ) (fo : FilterOptions) (tag : Strategy)
    (contours : List (List Point)) : List Tagged :=
  match contours with
  | [] => []
  | _ :: _ =>
    match findDocumentContour approxFn contours width height fo with
    | some c => [⟨c, tag⟩]
    | none => []

/-- The pooled candidates of all three strategies, in execution order:
Enhanced (skipped entirely when it threw), then — only with
`useFallback` — Canny-Fallback and Canny-Default. -/
noncomputable def driverPool (approxFn : List Point → ℝ → List Point)
    (width height : ℝ) (fo : FilterOptions)
    (enhancedContours : Option (List (List Point)))
    (cannyContours defaultContours : List (List Point)) (useFallback : Bool) :
    List Tagged :=
  (match enhancedContours with
    | none => []
    | some cs => strategyCandidates approxFn width height fo Strategy.enhanced cs) ++
  (if useFallback then
    strategyCandidates approxFn width height fo Strategy.cannyFallback cannyContours
    else []) ++
  (if useFallback then
    strategyCandidates approxFn width height fo Strategy.cannyDefault defaultContours
    else [])

/-- The raw-contour fallback: the first contour of the Canny-Fallback list,
else the first contour of the Canny-Default list (each set only inside its
`useFallback` block and only when the list is nonempty). -/
def driverFallbackContour (cannyContours defaultContours : List (List Point))
    (useFallback : Bool) : Option (List Point) :=
  if useFallback then
    match cannyContours.head? with
    | some c => some c
    | none => defaultContours.head?
  else none

/-- The tail of the driver after a document contour was chosen: ask the
external corner finder; a null answer gives the no-corner-points failure,
otherwise the corners are scaled back when `scaleFactor ≠ 1` and the
detection result is returned. -/
noncomputable def finishWith (cornersOf : List Point → Option Corners)
    (scaleFactor : ℝ) (contour : List Point) : DetectResult :=
  match cornersOf contour with
  | none => DetectResult.noCorners
  | some crn =>
    DetectResult.detected contour
      (if scaleFactor = 1 then crn else scaleCorners scaleFactor crn)

/-- Embedding of `detectDocumentInternal`: pool the strategy candidates,
sort them by score descending and take the best; with an empty pool fall
back to the largest raw Canny contour; with nothing at all return the
structured no-document result. -/
noncomputable def detectDocumentInternal (approxFn : List Point → ℝ → List Point)
    (cornersOf : List Point → Option Corners)
    (enhancedContours : Option (List (List Point)))
    (cannyContours defaultContours : List (List Point))
    (width height scaleFactor : ℝ) (useFallback : Bool) (fo : FilterOptions) :
    DetectResult :=
  match (List.insertionSort taggedGE (driverPool approxFn width height fo
      enhancedContours cannyContours defaultContours useFallback)).head? with
  | some t => finishWith cornersOf scaleFactor t.cand.contour
  | none =>
    match driverFallbackContour cannyContours defaultContours useFallback with
    | some c => finishWith cornersOf scaleFactor c
    | none => DetectResult.noDocument

/-! ### Claim C5: final selection -/

/-- C5: with a nonempty pool, the pooled candidates are sorted by composite
score descending and the top one drives the result (its score is maximal in
the pool); with an empty pool the result is driven by the first raw contour
of the Canny-Fallback list, else of the Canny-Default list, unapproximated;
when those are empty too (or the fallback strategies are disabled), the
result is the structured no-document value with `success = false` — the
embedding is a total function, so no exception is thrown on this path. -/
theorem driver_selection (approxFn : List Point → ℝ → List Point)
    (cornersOf : List Point → Option Corners)
    (enhancedContours : Option (List (List Point)))
    (cannyContours defaultContours : List (List Point))
    (width height scaleFactor : ℝ) (useFallback : Bool) (fo : FilterOptions) :
    (driverPool approxFn width height fo enhancedContours cannyContours defaultContours
        useFallback ≠ [] →
      ∃ t rest,
        List.insertionSort taggedGE (driverPool approxFn width height fo enhancedContours
          cannyContours defaultContours useFallback) = t :: rest ∧
        t ∈ driverPool approxFn width height fo enhancedContours cannyContours
          defaultContours useFallback ∧
        (∀ u ∈ driverPool approxFn width height fo enhancedContours cannyContours
          defaultContours useFallback, u.cand.score ≤ t.cand.score) ∧
        detectDocumentInternal approxFn cornersOf enhancedContours cannyContours
          defaultContours width height scaleFactor useFallback fo =
          finishWith cornersOf scaleFactor t.cand.contour) ∧
    (driverPool approxFn width height fo enhancedContours cannyContours defaultContours
        useFallback = [] → useFallback = true →
      ∀ c0 cs, cannyContours = c0 :: cs →
        detectDocumentInternal approxFn cornersOf enhancedContours cannyContours
          defaultContours width height scaleFactor useFallback fo =
          finishWith cornersOf scaleFactor c0) ∧
    (driverPool approxFn width height fo enhancedContours cannyContours defaultContours
        useFallback = [] → useFallback = true → cannyContours = [] →
      ∀ d0 ds, defaultContours = d0 :: ds →
        detectDocumentInternal approxFn cornersOf enhancedContours cannyContours
          defaultContours width height scaleFactor useFallback fo =
          finishWith cornersOf scaleFactor d0) ∧
    (driverPool approxFn width height fo enhancedContours cannyContours defaultContours
        useFallback = [] →
      (useFallback = false ∨ (cannyContours = [] ∧ defaultContours = [])) →
      detectDocumentInternal approxFn cornersOf enhancedContours cannyContours
        defaultContours width height scaleFactor useFallback fo =
        DetectResult.noDocument ∧
      DetectResult.noDocument.success = false) := by
  refine ⟨?_, ?_, ?_, ?_⟩
  · intro hne
    have hperm := List.perm_insertionSort taggedGE (driverPool approxFn width height fo
      enhancedContours cannyContours defaultContours useFallback)
    have hsorted := List.sorted_insertionSort taggedGE (driverPool approxFn width height fo
      enhancedContours cannyContours defaultContours useFallback)
    cases hs : List.insertionSort taggedGE (driverPool approxFn width height fo
      enhancedContours cannyContours defaultContours useFallback) with
    | nil =>
      rw [hs] at hperm
      exact absurd (hperm.symm.eq_nil) hne
    | cons t rest =>
      rw [hs] at hperm hsorted
      refine ⟨t, rest, rfl, hperm.subset (List.mem_cons_self t rest), ?_, ?_⟩
      · intro u hu
        rcases List.mem_cons.mp (hperm.symm.subset hu) with rfl | hmem
        · exact le_refl _
        · exact (List.sorted_cons.mp hsorted).1 u hmem
      · unfold detectDocumentInternal
        rw [hs]
        rfl
  · intro hp huf c0 cs hc
    unfold detectDocumentInternal
    rw [hp, hc, driverFallbackContour, huf]
    simp
  · intro hp huf hcn d0 ds hd
    unfold detectDocumentInternal
    rw [hp, hcn, hd, driverFallbackContour, huf]
    simp
  · intro hp hcase
    refine ⟨?_, rfl⟩
    unfold detectDocumentInternal
    rw [hp, driverFallbackContour]
    rcases hcase with huf | ⟨hcn, hdn⟩
    · rw [huf]
      simp
    · rw [hcn, hdn]
      simp

/-- C5 witness: with no contours from any strategy the driver returns the
structured no-document result. -/
theorem driver_selection_witness :
    detectDocumentInternal (fun _ _ => rectPts) (fun _ => none) none [] [] 4 3 1 true
      (mkFilterOptions emptyOpts) = DetectResult.noDocument ∧
    DetectResult.noDocument.success = false :=
  (driver_selection (fun _ _ => rectPts) (fun _ => none) none [] [] 4 3 1 true
    (mkFilterOptions emptyOpts)).2.2.2 (by simp [driverPool, strategyCandidates])
    (Or.inr ⟨rfl, rfl⟩)

/-! ### Claim C2: degenerate dimensions -/

/-- A raw contour with five points (never approximable to a quadrilateral by
the oracle used below). -/
def fivePts : List Point := [⟨0, 0⟩, ⟨1, 0⟩, ⟨2, 0⟩, ⟨2, 1⟩, ⟨0, 1⟩]

/-- A fixed answer for the external corner finder. -/
def demoCorners : Corners := ⟨⟨0, 0⟩, ⟨2, 0⟩, ⟨2, 1⟩, ⟨0, 1⟩⟩

/-- C2 (counterexample): the driver contains no dimension check.  With
`width = height = 0` (degenerate, `W < 1`), the strategies still execute:
the Canny-Fallback raw contour survives as the fallback and the scan
returns a successful detection — the input is not rejected at the
boundary and strategies do run on it. -/
theorem degenerate_dimensions_counterexample :
    ((0 : ℝ) < 1) ∧
    detectDocumentInternal (fun _ _ => fivePts) (fun _ => some demoCorners)
      (some []) [fivePts] [] 0 0 1 true (mkFilterOptions emptyOpts) =
      DetectResult.detected fivePts demoCorners ∧
    (DetectResult.detected fivePts demoCorners).success = true := by
  refine ⟨by norm_num, ?_, rfl⟩
  have hcands : findDocumentContourCandidates (fun _ _ => fivePts) [fivePts] 0 0
      (mkFilterOptions emptyOpts) = [] := by
    rw [findDocumentContourCandidates]
    simp only [List.map_cons, List.map_nil]
    rw [if_neg (by norm_num [fivePts]), tryEpsilons_of_not_admissible]
    · rfl
    · intro e he hadm
      have h4 := hadm.1
      norm_num [fivePts] at h4
  have hfilter : findDocumentContour (fun _ _ => fivePts) [fivePts] 0 0
      (mkFilterOptions emptyOpts) = none := by
    rw [findDocumentContour, hcands]
    rfl
  have hpool : driverPool (fun _ _ => fivePts) 0 0 (mkFilterOptions emptyOpts)
      (some []) [fivePts] [] true = [] := by
    simp [driverPool, strategyCandidates, hfilter]
  unfold detectDocumentInternal
  rw [hpool]
  simp [driverFallbackContour, finishWith]

/-- C2 (amended): degenerate dimensions are not rejected at a boundary; the
driver applies the very same strategy pipeline.  When the strategies
produce no contours on such an input, the scan flows through to the
structured no-document result (success = false) instead of a rejection,
and no exception is thrown (the embedding is a total function). -/
theorem degenerate_dimensions_no_gate (width height : ℝ)
    (hdeg : width < 1 ∨ height < 1)
    (approxFn : List Point → ℝ → List Point) (cornersOf : List Point → Option Corners)
    (enhancedContours : Option (List (List Point)))
    (henh : enhancedContours = none ∨ enhancedContours = some [])
    (scaleFactor : ℝ) (useFallback : Bool) (fo : FilterOptions) :
    detectDocumentInternal approxFn cornersOf enhancedContours [] [] width height
      scaleFactor useFallback fo = DetectResult.noDocument ∧
    (detectDocumentInternal approxFn cornersOf enhancedContours [] [] width height
      scaleFactor useFallback fo).success = false := by
  have hpool : driverPool approxFn width height fo enhancedContours [] [] useFallback = [] := by
    rcases henh with rfl | rfl <;> cases useFallback <;>
      simp [driverPool, strategyCandidates]
  have hres : detectDocumentInternal approxFn cornersOf enhancedContours [] [] width height
      scaleFactor useFallback fo = DetectResult.noDocument := by
    unfold detectDocumentInternal
    rw [hpool, driverFallbackContour]
    cases useFallback <;> simp
  exact ⟨hres, by rw [hres]; rfl⟩

/-- C2 (amended) witness: the 0×0 input with no strategy output flows to
the structured no-document result. -/
theorem degenerate_dimensions_no_gate_witness :
    detectDocumentInternal (fun _ _ => rectPts) (fun _ => none) none [] [] 0 0 1 true
      (mkFilterOptions emptyOpts) = DetectResult.noDocument :=
  (degenerate_dimensions_no_gate 0 0 (Or.inl (by norm_num)) (fun _ _ => rectPts)
    (fun _ => none) none (Or.inl rfl) 1 true (mkFilterOptions emptyOpts)).1

end Scanic
